import Mathlib
/-!
Verification development for `scripts/merge_last_days.py`, a command-line
utility that merges an "old" accumulated CSV table with a "new" exported CSV
table, rewriting only the rows of the last N days.

Modelling conventions:

* a CSV row is a `List String`; a table is a `List Row` whose first row is the
  header (exactly what `csv.reader` hands to the script);
* calendar dates are represented by their day number in the proleptic
  Gregorian calendar (`civilOrdinal`).  Python `datetime.date` values are
  totally ordered by calendar order and `date - timedelta(days=k)` subtracts
  `k` from the day number, so comparisons and the cutoff arithmetic of the
  script map to integer comparisons and integer subtraction on day numbers;
* `parse_date` mirrors the Python function of the same name: it can return a
  date, return `None` (empty string after stripping), or raise `ValueError`
  (`Except.error ()`) when `datetime.date.fromisoformat` rejects the string;
* file input is a `Option (List Row)`: `none` models a file that cannot be
  opened (for `--new`) resp. an absent/empty `--old` file;
* the overall process outcome is a `RunResult`: an uncaught Python exception
  (`crash`, process exit status 1), a diagnosed fatal error
  (`fatal`, `sys.exit(2)` after a message on stderr), or a normal completion
  (`ok`, exit status 0) carrying the emitted warnings and the rows written to
  the `--out` file.  Only `ok` writes the output file.
-/
abbrev Row := List String
instance {ε α : Type} [DecidableEq ε] [DecidableEq α] : DecidableEq (Except ε α) := fun x y =>
  match x, y with
  | Except.error a, Except.error b =>
    if h : a = b then isTrue (by rw [h]) else isFalse (by intro hc; cases hc; exact h rfl)
  | Except.error _, Except.ok _ => isFalse (by intro hc; cases hc)
  | Except.ok _, Except.error _ => isFalse (by intro hc; cases hc)
  | Except.ok a, Except.ok b =>
    if h : a = b then isTrue (by rw [h]) else isFalse (by intro hc; cases hc; exact h rfl)
/-- Gregorian leap-year test, as `datetime` implements it. -/
def isLeap (y : Nat) : Bool :=
  y % 4 == 0 && (y % 100 != 0 || y % 400 == 0)
/-- Number of days in month `m` of year `y` (months numbered 1..12). -/
def daysInMonth (y m : Nat) : Nat :=
  if m = 2 then (if isLeap y then 29 else 28)
  else if m = 4 ∨ m = 6 ∨ m = 9 ∨ m = 11 then 30
  else 31
/-- Day number of the Gregorian date `y-m-d` (days since 0000-03-01, via the
standard civil-from-date formula).  Python `date` order and day arithmetic
correspond to `Int` order and arithmetic on these numbers. -/
def civilOrdinal (y m d : Nat) : Int :=
  let yAdj := y - (if m ≤ 2 then 1 else 0)
  let era := yAdj / 400
  let yoe := yAdj % 400
  let mp := if 3 ≤ m then m - 3 else m + 9
  let doy := (153 * mp + 2) / 5 + (d - 1)
  let doe := yoe * 365 + yoe / 4 - yoe / 100 + doy
  ((era * 146097 + doe : Nat) : Int)
/-- Numeric value of a decimal digit character. -/
def digitVal (c : Char) : Nat := c.toNat - 48
/-- Python `str.strip()` on a character list: drop whitespace from both
ends. -/
def pyStrip (l : List Char) : List Char :=
  ((l.dropWhile Char.isWhitespace).reverse.dropWhile Char.isWhitespace).reverse
/-- Strict ISO `YYYY-MM-DD` parsing, as `datetime.date.fromisoformat` accepts
it: exactly ten characters, digits in the year/month/day positions, dashes at
positions 4 and 7, and the resulting numbers a valid calendar date
(year ≥ 1, month 1..12, day within the month). -/
def parseIsoDate (s : List Char) : Option (Nat × Nat × Nat) :=
  match s with
  | [y1, y2, y3, y4, c1, m1, m2, c2, d1, d2] =>
    if y1.isDigit && y2.isDigit && y3.isDigit && y4.isDigit && c1 == '-' &&
        m1.isDigit && m2.isDigit && c2 == '-' && d1.isDigit && d2.isDigit then
      let y := 1000 * digitVal y1 + 100 * digitVal y2 + 10 * digitVal y3 + digitVal y4
      let m := 10 * digitVal m1 + digitVal m2
      let d := 10 * digitVal d1 + digitVal d2
      if 1 ≤ y ∧ 1 ≤ m ∧ m ≤ 12 ∧ 1 ≤ d ∧ d ≤ daysInMonth y m then
        some (y, m, d)
      else none
    else none
  | _ => none
/-- Embedding of the script's `parse_date`:
strip whitespace; an empty result is Python `None` (`Except.ok none`);
otherwise take the part before the first `T`, then before the first space,
and hand it to `date.fromisoformat`, which either yields a date
(`Except.ok (some _)`) or raises `ValueError` (`Except.error ()`). -/
def parse_date (s : String) : Except Unit (Option Int) :=
  let t := pyStrip s.toList
  if t = [] then Except.ok none
  else
    let u := (t.takeWhile (fun c => !(c == 'T'))).takeWhile (fun c => !(c == ' '))
    match parseIsoDate u with
    | some (y, m, d) => Except.ok (some (civilOrdinal y m d))
    | none => Except.error ()
/-- Embedding of Python `list.index` on the header (`header.index(date_col)`):
index of the first occurrence, `none` when absent (`ValueError` in Python,
which the script catches and turns into a fatal error). -/
def indexOfCol (x : String) : List String → Option Nat
  | [] => none
  | a :: rest => if a = x then some 0 else (indexOfCol x rest).map (· + 1)
/-- Python dict assignment `m[k] = v`: overwrite in place if the key is
present, otherwise append the new binding at the end. -/
def dictInsert (m : List (Int × Row)) (k : Int) (v : Row) : List (Int × Row) :=
  if m.any (fun p => p.1 == k) then
    m.map (fun p => if p.1 == k then (k, v) else p)
  else m ++ [(k, v)]
/-- Python dict lookup `m[k]` (as an `Option`). -/
def dictFind (m : List (Int × Row)) (k : Int) : Option Row :=
  (m.find? (fun p => p.1 == k)).map Prod.snd
/-- The loop indexing NEW rows by date for dates ≥ cutoff (lines 68-77 of the
script).  Malformed field counts and `None` dates are skipped quietly, but a
`ValueError` from `parse_date` is NOT caught here, so it aborts the whole
program (`Except.error`). -/
def buildNewRecent (header : Row) (di : Nat) (cutoff : Int) :
    List Row → List (Int × Row) → Except Unit (List (Int × Row))
  | [], acc => Except.ok acc
  | row :: rest, acc =>
    if row.length ≠ header.length then
      buildNewRecent header di cutoff rest acc
    else
      match parse_date (row.getD di "") with
      | Except.error e => Except.error e
      | Except.ok none => buildNewRecent header di cutoff rest acc
      | Except.ok (some d) =>
        if cutoff ≤ d then buildNewRecent header di cutoff rest (dictInsert acc d row)
        else buildNewRecent header di cutoff rest acc
/-- Filter of the OLD loop (lines 82-92): a row is kept exactly when its field
count matches the header, `parse_date` succeeds with an actual date (the
`try/except` swallows `ValueError` and `None` is skipped), and the date is
strictly before the cutoff. -/
def usableOld (header : Row) (di : Nat) (cutoff : Int) (row : Row) : Bool :=
  row.length == header.length &&
    match parse_date (row.getD di "") with
    | Except.ok (some d) => decide (d < cutoff)
    | _ => false
/-- The OLD rows appended to `merged` (lines 82-92), in input order. -/
def oldKept (header : Row) (di : Nat) (cutoff : Int) (rows : List Row) : List Row :=
  rows.filter (usableOld header di cutoff)
/-- Iteration `for d in sorted(new_recent.keys()): merged.append(new_recent[d])`
(lines 96-97).  Python `sorted` is a stable sort; stable sorts agree
extensionally, so it is embedded as insertion sort. -/
def recentRows (m : List (Int × Row)) : List Row :=
  ((m.map Prod.fst).insertionSort (· ≤ ·)).filterMap (dictFind m)
/-- Sort key of line 101: `parse_date(r[di])`.  Every row in the merged body
parses to an actual date (proved below), so the fallback value `0` of the
other two branches is never consulted there (Python would raise on them). -/
def dateKey (di : Nat) (r : Row) : Int :=
  match parse_date (r.getD di "") with
  | Except.ok (some d) => d
  | _ => 0
/-- Comparison used by the final stable sort (line 101): rows compare by their
parsed date. -/
def dateLe (di : Nat) (a b : Row) : Prop := dateKey di a ≤ dateKey di b
instance (di : Nat) : DecidableRel (dateLe di) :=
  fun a b => inferInstanceAs (Decidable (dateKey di a ≤ dateKey di b))
/-- Merged body before the final sort: OLD history rows first, then the
deduplicated recent NEW rows (lines 80-97). -/
def mergedBody (header : Row) (di : Nat) (cutoff : Int)
    (old_body : List Row) (new_recent : List (Int × Row)) : List Row :=
  oldKept header di cutoff old_body ++ recentRows new_recent
/-- The `old_rows` value after lines 54-60: `[]` when `--old` is absent,
missing or empty; the literal `[header]` when the file was non-empty but
`csv.reader` produced no rows; otherwise the rows as read. -/
def effectiveOldRows (header : Row) (oldFile : Option (List Row)) : List Row :=
  match oldFile with
  | none => []
  | some [] => [header]
  | some rows => rows
/-- Warning text of line 63. -/
def headerWarning : String :=
  "WARNING: headers differ; using NEW header & NEW data for recent window"
/-- Warnings emitted while loading the OLD table (lines 53-63): the header
warning is printed exactly when an OLD file was read and its first row
differs from the NEW header. -/
def runWarnings (header : Row) (oldFile : Option (List Row)) : List String :=
  match oldFile with
  | none => []
  | some _ =>
    if (effectiveOldRows header oldFile).headD [] = header then [] else [headerWarning]
/-- Outcome of one process run.  `crash` is an uncaught Python exception
(traceback on stderr, exit status 1, nothing written to `--out`); `fatal` is a
diagnostic on stderr followed by `sys.exit(2)` (nothing written); `ok` is a
normal exit 0 with the emitted warnings and the rows written to `--out`. -/
inductive RunResult where
  | crash (warnings : List String)
  | fatal (msg : String)
  | ok (warnings : List String) (out : List Row)
deriving DecidableEq
/-- Process exit status of each outcome (Python exits 1 on an uncaught
exception). -/
def exitCode : RunResult → Nat
  | RunResult.crash _ => 1
  | RunResult.fatal _ => 2
  | RunResult.ok _ _ => 0
/-- Warnings printed to stderr before the process ended. -/
def emittedWarnings : RunResult → List String
  | RunResult.crash w => w
  | RunResult.fatal _ => []
  | RunResult.ok w _ => w
/-- Embedding of `main` after argument parsing (lines 38-107): `date_col` and
`keep_days` are the `--date-col` and `--keep-days` arguments, `today` is the
day number of the wall-clock date, `newFile`/`oldFile` the readable contents
of the `--new`/`--old` files (`none` = unreadable resp. absent-or-empty). -/
def run (date_col : String) (keep_days : Int) (today : Int)
    (newFile : Option (List Row)) (oldFile : Option (List Row)) : RunResult :=
  match newFile with
  | none => RunResult.crash []
  | some new_rows =>
    match new_rows with
    | [] => RunResult.fatal "ERROR: new CSV is empty"
    | header :: new_body =>
      match indexOfCol date_col header with
      | none =>
        RunResult.fatal ("ERROR: date column " ++ date_col ++ " not found in NEW header")
      | some di =>
        let old_rows := effectiveOldRows header oldFile
        let warnings := runWarnings header oldFile
        let cutoff := today - keep_days
        match buildNewRecent header di cutoff new_body [] with
        | Except.error _ => RunResult.crash warnings
        | Except.ok new_recent =>
          let body := mergedBody header di cutoff (old_rows.drop 1) new_recent
          RunResult.ok warnings (header :: body.insertionSort (dateLe di))
/-- Bool test used to collect the output rows carrying a given date. -/
def atDate (di : Nat) (d : Int) (row : Row) : Bool :=
  decide (parse_date (row.getD di "") = Except.ok (some d))
/-- Bool test: a NEW row is usable for the recent window at date `d`
(field count matches, the date field parses to exactly `d`, and `d` is at or
after the cutoff). -/
def usableRecent (header : Row) (di : Nat) (cutoff : Int) (d : Int) (row : Row) : Bool :=
  row.length == header.length &&
    (decide (parse_date (row.getD di "") = Except.ok (some d)) && decide (cutoff ≤ d))
/-- Invariant of every binding of the NEW-window dict: the stored row has the
header's field count, its date field parses back to the binding's key, and the
key is at or after the cutoff. -/
def EntryProp (header : Row) (di : Nat) (cutoff : Int) (p : Int × Row) : Prop :=
  p.2.length = header.length ∧
    parse_date (p.2.getD di "") = Except.ok (some p.1) ∧ cutoff ≤ p.1
instance (di : Nat) : IsTotal Row (dateLe di) :=
  ⟨fun a b => le_total (dateKey di a) (dateKey di b)⟩
instance (di : Nat) : IsTrans Row (dateLe di) :=
  ⟨fun _ _ _ hab hbc => le_trans hab hbc⟩
/-- Bool test: the date field of `row` makes `parse_date` raise. -/
def parseRaises (di : Nat) (row : Row) : Bool :=
  decide (parse_date (row.getD di "") = Except.error ())
/-- Demo OLD table of the spec's concrete scenario. -/
def oldDemo : List Row :=
  [["Date", "Value"], ["2024-01-01", "1"], ["2024-01-02", "2"], ["2024-01-03", "3"],
   ["2024-01-04", "4"], ["2024-01-05", "5"]]
/-- Demo NEW table of the spec's concrete scenario. -/
def newDemo : List Row :=
  [["Date", "Value"], ["2024-01-04", "40"], ["2024-01-05", "50"], ["2024-01-06", "60"]]
/-- Output of the demo scenario. -/
def outDemo : List Row :=
  [["Date", "Value"], ["2024-01-01", "1"], ["2024-01-02", "2"], ["2024-01-03", "3"],
   ["2024-01-04", "40"], ["2024-01-05", "50"], ["2024-01-06", "60"]]
/-- Recent-window dict of the demo scenario. -/
def dictDemo : List (Int × Row) :=
  [(civilOrdinal 2024 1 4, ["2024-01-04", "40"]), (civilOrdinal 2024 1 5, ["2024-01-05", "50"]),
   (civilOrdinal 2024 1 6, ["2024-01-06", "60"])]
theorem indexOfCol_lt_length {x : String} :
    ∀ {l : List String} {i : Nat}, indexOfCol x l = some i → i < l.length := by
  intro l
  induction l with
  | nil => intro i h; simp [indexOfCol] at h
  | cons a rest ih =>
    intro i h
    by_cases hax : a = x
    · simp only [indexOfCol, if_pos hax, Option.some.injEq] at h
      simp only [List.length_cons]
      omega
    · simp only [indexOfCol, if_neg hax, Option.map_eq_some'] at h
      obtain ⟨j, hj, rfl⟩ := h
      have := ih hj
      simp only [List.length_cons]
      omega
theorem mem_dictInsert {m : List (Int × Row)} {k : Int} {v : Row} {p : Int × Row}
    (h : p ∈ dictInsert m k v) : p ∈ m ∨ p = (k, v) := by
  unfold dictInsert at h
  split at h
  · obtain ⟨q, hq, hqe⟩ := List.mem_map.mp h
    by_cases hqk : (q.1 == k) = true
    · right; rw [if_pos hqk] at hqe; exact hqe.symm
    · left; rw [if_neg hqk] at hqe; exact hqe ▸ hq
  · rcases List.mem_append.mp h with h1 | h2
    · exact Or.inl h1
    · right
      simpa using h2
theorem dictInsert_keys_of_mem {m : List (Int × Row)} {k : Int} (v : Row)
    (h : m.any (fun p => p.1 == k) = true) :
    (dictInsert m k v).map Prod.fst = m.map Prod.fst := by
  unfold dictInsert
  rw [if_pos h, List.map_map]
  refine List.map_congr_left ?_
  intro q _
  simp only [Function.comp_apply]
  by_cases hqk : (q.1 == k) = true
  · rw [if_pos hqk]; exact (eq_of_beq hqk).symm
  · rw [if_neg hqk]
theorem dictInsert_nodupKeys {m : List (Int × Row)} {k : Int} {v : Row}
    (h : (m.map Prod.fst).Nodup) : ((dictInsert m k v).map Prod.fst).Nodup := by
  by_cases hany : m.any (fun p => p.1 == k) = true
  · rw [dictInsert_keys_of_mem v hany]; exact h
  · unfold dictInsert
    rw [if_neg hany, List.map_append]
    simp only [List.map_cons, List.map_nil]
    rw [List.nodup_append]
    refine ⟨h, List.nodup_singleton k, ?_⟩
    intro a ha hb
    simp only [List.mem_singleton] at hb
    subst hb
    obtain ⟨q, hq, hqa⟩ := List.mem_map.mp ha
    have hall := List.any_eq_false.mp (Bool.not_eq_true _ |>.mp hany)
    exact absurd (by simpa using hqa) (by simpa using hall q hq)
example : parse_date "  " = Except.ok none := by decide
example : parse_date "garbage" = Except.error () := by decide
example : parse_date "2024-01-06T12:00:00Z" = Except.ok (some (civilOrdinal 2024 1 6)) := by decide
example : parse_date "2024-02-30" = Except.error () := by decide
example : civilOrdinal 2024 1 6 - 2 = civilOrdinal 2024 1 4 := by decide
theorem dictFind_dictInsert_self (m : List (Int × Row)) (k : Int) (v : Row) :
    dictFind (dictInsert m k v) k = some v := by
  unfold dictFind dictInsert
  by_cases hany : m.any (fun p => p.1 == k) = true
  · rw [if_pos hany]
    induction m with
    | nil => simp at hany
    | cons q rest ih =>
      by_cases hqk : (q.1 == k) = true
      · simp only [List.map_cons, if_pos hqk]
        rw [List.find?_cons_of_pos (p := fun p : Int × Row => p.1 == k) _ (by simp)]
        rfl
      · simp only [List.map_cons, if_neg hqk]
        rw [List.find?_cons_of_neg (p := fun p : Int × Row => p.1 == k) _ hqk]
        exact ih (by simpa [hqk] using hany)
  · rw [if_neg hany, List.find?_append]
    have hnone : m.find? (fun p => p.1 == k) = none :=
      List.find?_eq_none.mpr (List.any_eq_false.mp (Bool.not_eq_true _ |>.mp hany))
    rw [hnone]
    simp
theorem dictFind_dictInsert_ne (m : List (Int × Row)) {k d : Int} (v : Row) (hne : k ≠ d) :
    dictFind (dictInsert m k v) d = dictFind m d := by
  unfold dictFind dictInsert
  by_cases hany : m.any (fun p => p.1 == k) = true
  · rw [if_pos hany]
    clear hany
    induction m with
    | nil => rfl
    | cons q rest ih =>
      by_cases hqk : (q.1 == k) = true
      · simp only [List.map_cons, if_pos hqk]
        have hqd : ¬(q.1 == d) = true := by
          simp only [beq_iff_eq] at hqk ⊢
          omega
        rw [List.find?_cons_of_neg (p := fun p : Int × Row => p.1 == d) _ (by simpa using hne),
          List.find?_cons_of_neg (p := fun p : Int × Row => p.1 == d) _ hqd]
        exact ih
      · simp only [List.map_cons, if_neg hqk]
        by_cases hqd : (q.1 == d) = true
        · rw [List.find?_cons_of_pos (p := fun p : Int × Row => p.1 == d) _ hqd,
            List.find?_cons_of_pos (p := fun p : Int × Row => p.1 == d) _ hqd]
        · rw [List.find?_cons_of_neg (p := fun p : Int × Row => p.1 == d) _ hqd,
            List.find?_cons_of_neg (p := fun p : Int × Row => p.1 == d) _ hqd]
          exact ih
  · rw [if_neg hany, List.find?_append]
    have hsing : ([(k, v)].find? (fun p => p.1 == d)) = none := by
      simp [hne]
    rw [hsing, Option.or_none]
theorem getLast?_cons_or : ∀ (l : List α) (a : α),
    (a :: l).getLast? = l.getLast?.or (some a)
  | [], _ => rfl
  | b :: t, a => by
    rw [List.getLast?_cons_cons, getLast?_cons_or t b, Option.or_assoc, Option.or_some]
/-- Last-wins characterization of the NEW-window dict (lines 68-77 and the
comment on lines 94-95): when the scan completes without raising, the row
recorded for date `d` is the last usable row of the NEW body carrying date
`d` (falling back to whatever the accumulator already held). -/
theorem buildNewRecent_find (header : Row) (di : Nat) (cutoff : Int) :
    ∀ (rows : List Row) (acc m : List (Int × Row)),
      buildNewRecent header di cutoff rows acc = Except.ok m →
      ∀ d : Int,
        dictFind m d =
          ((rows.filter (usableRecent header di cutoff d)).getLast?).or (dictFind acc d) := by
  intro rows
  induction rows with
  | nil =>
    intro acc m h d
    simp only [buildNewRecent, Except.ok.injEq] at h
    subst h
    simp
  | cons row rest ih =>
    intro acc m h d
    by_cases hlen : row.length = header.length
    · rw [buildNewRecent, if_neg (by omega)] at h
      cases hp : parse_date (row.getD di "") with
      | error e => rw [hp] at h; simp only [] at h; exact absurd h (by simp)
      | ok o =>
        rw [hp] at h
        cases o with
        | none =>
          simp only [] at h
          have hu : usableRecent header di cutoff d row = false := by
            unfold usableRecent
            rw [hp]
            simp
          rw [List.filter_cons_of_neg (by simp [hu])]
          exact ih acc m h d
        | some d0 =>
          simp only [] at h
          by_cases hcut : cutoff ≤ d0
          · rw [if_pos hcut] at h
            by_cases hdd : d0 = d
            · subst hdd
              have hu : usableRecent header di cutoff d0 row = true := by
                unfold usableRecent
                rw [hp]
                simp [hlen, hcut]
              rw [List.filter_cons_of_pos (by simp [hu]), getLast?_cons_or,
                Option.or_assoc, Option.or_some]
              rw [ih _ _ h d0, dictFind_dictInsert_self]
            · have hu : usableRecent header di cutoff d row = false := by
                unfold usableRecent
                rw [hp]
                simp [hdd]
              rw [List.filter_cons_of_neg (by simp [hu])]
              rw [ih _ _ h d, dictFind_dictInsert_ne _ _ hdd]
          · rw [if_neg hcut] at h
            have hu : usableRecent header di cutoff d row = false := by
              unfold usableRecent
              rw [hp]
              by_cases hdd : d0 = d
              · subst hdd
                simp [hcut]
              · simp [hdd]
            rw [List.filter_cons_of_neg (by simp [hu])]
            exact ih acc m h d
    · rw [buildNewRecent, if_pos (by omega)] at h
      have hu : usableRecent header di cutoff d row = false := by
        unfold usableRecent
        simp [hlen]
      rw [List.filter_cons_of_neg (by simp [hu])]
      exact ih acc m h d
theorem buildNewRecent_prop (header : Row) (di : Nat) (cutoff : Int) :
    ∀ (rows : List Row) (acc m : List (Int × Row)),
      buildNewRecent header di cutoff rows acc = Except.ok m →
      (∀ p ∈ acc, EntryProp header di cutoff p) →
      ∀ p ∈ m, EntryProp header di cutoff p := by
  intro rows
  induction rows with
  | nil =>
    intro acc m h hacc
    simp only [buildNewRecent, Except.ok.injEq] at h
    subst h
    exact hacc
  | cons row rest ih =>
    intro acc m h hacc
    by_cases hlen : row.length = header.length
    · rw [buildNewRecent, if_neg (by omega)] at h
      cases hp : parse_date (row.getD di "") with
      | error e => rw [hp] at h; simp only [] at h; exact absurd h (by simp)
      | ok o =>
        rw [hp] at h
        cases o with
        | none => simp only [] at h; exact ih acc m h hacc
        | some d0 =>
          simp only [] at h
          by_cases hcut : cutoff ≤ d0
          · rw [if_pos hcut] at h
            refine ih _ m h ?_
            intro p hmem
            rcases mem_dictInsert hmem with hin | rfl
            · exact hacc p hin
            · exact ⟨hlen, hp, hcut⟩
          · rw [if_neg hcut] at h
            exact ih acc m h hacc
    · rw [buildNewRecent, if_pos (by omega)] at h
      exact ih acc m h hacc
theorem buildNewRecent_mem (header : Row) (di : Nat) (cutoff : Int) :
    ∀ (rows : List Row) (acc m : List (Int × Row)),
      buildNewRecent header di cutoff rows acc = Except.ok m →
      ∀ p ∈ m, p ∈ acc ∨ p.2 ∈ rows := by
  intro rows
  induction rows with
  | nil =>
    intro acc m h p hp
    simp only [buildNewRecent, Except.ok.injEq] at h
    subst h
    exact Or.inl hp
  | cons row rest ih =>
    intro acc m h p hpm
    by_cases hlen : row.length = header.length
    · rw [buildNewRecent, if_neg (by omega)] at h
      cases hp : parse_date (row.getD di "") with
      | error e => rw [hp] at h; simp only [] at h; exact absurd h (by simp)
      | ok o =>
        rw [hp] at h
        cases o with
        | none =>
          simp only [] at h
          rcases ih acc m h p hpm with hin | hin
          · exact Or.inl hin
          · exact Or.inr (List.mem_cons_of_mem _ hin)
        | some d0 =>
          simp only [] at h
          by_cases hcut : cutoff ≤ d0
          · rw [if_pos hcut] at h
            rcases ih _ m h p hpm with hin | hin
            · rcases mem_dictInsert hin with hin2 | rfl
              · exact Or.inl hin2
              · exact Or.inr (List.mem_cons_self _ _)
            · exact Or.inr (List.mem_cons_of_mem _ hin)
          · rw [if_neg hcut] at h
            rcases ih acc m h p hpm with hin | hin
            · exact Or.inl hin
            · exact Or.inr (List.mem_cons_of_mem _ hin)
    · rw [buildNewRecent, if_pos (by omega)] at h
      rcases ih acc m h p hpm with hin | hin
      · exact Or.inl hin
      · exact Or.inr (List.mem_cons_of_mem _ hin)
theorem buildNewRecent_nodup (header : Row) (di : Nat) (cutoff : Int) :
    ∀ (rows : List Row) (acc m : List (Int × Row)),
      buildNewRecent header di cutoff rows acc = Except.ok m →
      (acc.map Prod.fst).Nodup → (m.map Prod.fst).Nodup := by
  intro rows
  induction rows with
  | nil =>
    intro acc m h hacc
    simp only [buildNewRecent, Except.ok.injEq] at h
    subst h
    exact hacc
  | cons row rest ih =>
    intro acc m h hacc
    by_cases hlen : row.length = header.length
    · rw [buildNewRecent, if_neg (by omega)] at h
      cases hp : parse_date (row.getD di "") with
      | error e => rw [hp] at h; simp only [] at h; exact absurd h (by simp)
      | ok o =>
        rw [hp] at h
        cases o with
        | none => simp only [] at h; exact ih acc m h hacc
        | some d0 =>
          simp only [] at h
          by_cases hcut : cutoff ≤ d0
          · rw [if_pos hcut] at h
            exact ih _ m h (dictInsert_nodupKeys hacc)
          · rw [if_neg hcut] at h
            exact ih acc m h hacc
    · rw [buildNewRecent, if_pos (by omega)] at h
      exact ih acc m h hacc
theorem mem_of_dictFind_eq_some {m : List (Int × Row)} {k : Int} {v : Row}
    (h : dictFind m k = some v) : (k, v) ∈ m := by
  unfold dictFind at h
  cases hf : m.find? (fun p => p.1 == k) with
  | none => rw [hf] at h; simp at h
  | some q =>
    rw [hf] at h
    have hq : q ∈ m := List.mem_of_find?_eq_some hf
    have hk : q.1 = k := by simpa using List.find?_some hf
    have hv : q.2 = v := by simpa using h
    have : q = (k, v) := by
      cases q
      simp only at hk hv
      rw [hk, hv]
    exact this ▸ hq
theorem dictFind_eq_some_of_mem :
    ∀ {m : List (Int × Row)}, ((m.map Prod.fst).Nodup) →
      ∀ {k : Int} {v : Row}, (k, v) ∈ m → dictFind m k = some v := by
  intro m
  induction m with
  | nil => intro _ k v h; simp at h
  | cons q rest ih =>
    intro hnd k v h
    simp only [List.map_cons, List.nodup_cons] at hnd
    rcases List.mem_cons.mp h with rfl | hin
    · unfold dictFind
      rw [List.find?_cons_of_pos (p := fun p : Int × Row => p.1 == k) _ (by simp)]
      rfl
    · have hk : q.1 ≠ k := by
        intro he
        exact hnd.1 (he ▸ List.mem_map.mpr ⟨(k, v), hin, rfl⟩)
      unfold dictFind
      rw [List.find?_cons_of_neg (p := fun p : Int × Row => p.1 == k) _ (by simpa using hk)]
      exact ih hnd.2 hin
theorem dictFind_eq_none_of_not_mem {m : List (Int × Row)} {k : Int}
    (h : k ∉ m.map Prod.fst) : dictFind m k = none := by
  unfold dictFind
  rw [List.find?_eq_none.mpr]
  · rfl
  · intro p hp hbeq
    exact h (List.mem_map.mpr ⟨p, hp, (eq_of_beq hbeq)⟩)
theorem mem_recentRows_elim {m : List (Int × Row)} {r : Row}
    (h : r ∈ recentRows m) : ∃ k, (k, r) ∈ m := by
  unfold recentRows at h
  obtain ⟨k, _, hfind⟩ := List.mem_filterMap.mp h
  exact ⟨k, mem_of_dictFind_eq_some hfind⟩
theorem mem_recentRows_intro {m : List (Int × Row)} (hnd : (m.map Prod.fst).Nodup)
    {k : Int} {v : Row} (h : (k, v) ∈ m) : v ∈ recentRows m := by
  unfold recentRows
  refine List.mem_filterMap.mpr ⟨k, ?_, dictFind_eq_some_of_mem hnd h⟩
  rw [List.mem_insertionSort]
  exact List.mem_map.mpr ⟨(k, v), h, rfl⟩
theorem usableOld_spec {header : Row} {di : Nat} {cutoff : Int} {row : Row}
    (h : usableOld header di cutoff row = true) :
    row.length = header.length ∧
      ∃ d, parse_date (row.getD di "") = Except.ok (some d) ∧ d < cutoff := by
  unfold usableOld at h
  rcases Bool.and_eq_true_iff.mp h with ⟨h1, h2⟩
  refine ⟨by simpa using h1, ?_⟩
  cases hp : parse_date (row.getD di "") with
  | error e => rw [hp] at h2; simp at h2
  | ok o =>
    rw [hp] at h2
    cases o with
    | none => simp at h2
    | some d => exact ⟨d, rfl, by simpa using h2⟩
theorem usableOld_intro {header : Row} {di : Nat} {cutoff : Int} {row : Row} {d : Int}
    (hlen : row.length = header.length)
    (hp : parse_date (row.getD di "") = Except.ok (some d)) (hd : d < cutoff) :
    usableOld header di cutoff row = true := by
  unfold usableOld
  rw [hp]
  simp [hlen, hd]
theorem parse_of_atDate {di : Nat} {d : Int} {r : Row} (h : atDate di d r = true) :
    parse_date (r.getD di "") = Except.ok (some d) := by
  simpa [atDate] using h
theorem dateKey_of_atDate {di : Nat} {d : Int} {r : Row} (h : atDate di d r = true) :
    dateKey di r = d := by
  unfold dateKey
  rw [parse_of_atDate h]
/-- Stability of the final sort (line 101): sorting does not change the
subsequence of rows carrying any fixed date `d`. -/
theorem filter_insertionSort_atDate (di : Nat) (d : Int) (l : List Row) :
    (l.insertionSort (dateLe di)).filter (atDate di d) = l.filter (atDate di d) := by
  have hpw : (l.filter (atDate di d)).Pairwise (dateLe di) := by
    refine List.pairwise_of_forall_mem_list ?_
    intro a ha b hb
    have hpa := dateKey_of_atDate (List.of_mem_filter ha)
    have hpb := dateKey_of_atDate (List.of_mem_filter hb)
    unfold dateLe
    rw [hpa, hpb]
  have hsub : List.Sublist (l.filter (atDate di d)) (List.insertionSort (dateLe di) l) :=
    List.sublist_insertionSort hpw (List.filter_sublist l)
  have hself : (l.filter (atDate di d)).filter (atDate di d) = l.filter (atDate di d) :=
    List.filter_eq_self.mpr (fun a ha => List.of_mem_filter ha)
  have hsub2 : List.Sublist (l.filter (atDate di d))
      ((List.insertionSort (dateLe di) l).filter (atDate di d)) := by
    have := hsub.filter (atDate di d)
    rwa [hself] at this
  have hperm : List.Perm ((List.insertionSort (dateLe di) l).filter (atDate di d))
      (l.filter (atDate di d)) :=
    (List.perm_insertionSort (dateLe di) l).filter _
  exact (hsub2.eq_of_length hperm.length_eq.symm).symm
theorem oldKept_filter_atDate_ge {header : Row} {di : Nat} {cutoff d : Int}
    (hd : cutoff ≤ d) (rows : List Row) :
    (oldKept header di cutoff rows).filter (atDate di d) = [] := by
  rw [List.filter_eq_nil_iff]
  intro r hr hat
  obtain ⟨-, d0, hp0, hlt⟩ := usableOld_spec (List.of_mem_filter hr)
  have hp := parse_of_atDate hat
  rw [hp0] at hp
  have : d0 = d := by simpa using hp
  omega
/-- Through the NEW-window dict invariant, the rows the dict contributes to
the merged body at date `d` are exactly its binding for `d`. -/
theorem recentRows_filter_atDate {header : Row} {di : Nat} {cutoff : Int}
    {m : List (Int × Row)} (hnd : (m.map Prod.fst).Nodup)
    (hprop : ∀ p ∈ m, EntryProp header di cutoff p) (d : Int) :
    (recentRows m).filter (atDate di d) = (dictFind m d).toList := by
  unfold recentRows
  rw [List.filter_filterMap]
  have main : ∀ (ks : List Int), ks.Nodup → (∀ k ∈ ks, k ∈ m.map Prod.fst) →
      (ks.filterMap (fun k => Option.filter (atDate di d) (dictFind m k))) =
        if d ∈ ks then (dictFind m d).toList else [] := by
    intro ks
    induction ks with
    | nil => intro _ _; simp
    | cons k t iht =>
      intro hnd2 hmem
      simp only [List.nodup_cons] at hnd2
      obtain ⟨p, hpm, hpk⟩ := List.mem_map.mp (hmem k (List.mem_cons_self k t))
      have hkv : (k, p.2) ∈ m := by
        have : p = (k, p.2) := by
          cases p
          simp only at hpk
          rw [hpk]
        exact this ▸ hpm
      have hfind : dictFind m k = some p.2 := dictFind_eq_some_of_mem hnd hkv
      have hparse : parse_date (p.2.getD di "") = Except.ok (some k) :=
        (hprop _ hkv).2.1
      rw [List.filterMap_cons, hfind, Option.filter_some]
      by_cases hkd : k = d
      · subst hkd
        have hat : atDate di k p.2 = true := by
          unfold atDate
          rw [hparse]
          simp
        rw [if_pos hat]
        rw [iht hnd2.2 (fun x hx => hmem x (List.mem_cons_of_mem _ hx)),
          if_neg hnd2.1, if_pos (List.mem_cons_self k t), hfind]
        rfl
      · have hat : atDate di d p.2 = false := by
          unfold atDate
          rw [hparse]
          simp [hkd]
        rw [if_neg (by simp [hat])]
        rw [iht hnd2.2 (fun x hx => hmem x (List.mem_cons_of_mem _ hx))]
        by_cases hdt : d ∈ t
        · rw [if_pos hdt, if_pos (List.mem_cons_of_mem _ hdt)]
        · rw [if_neg hdt, if_neg ?_]
          rw [List.mem_cons]
          push_neg
          exact ⟨fun h => hkd h.symm, hdt⟩
  have hks : ((m.map Prod.fst).insertionSort (· ≤ ·)).Nodup :=
    (List.perm_insertionSort _ _).symm.nodup hnd
  have hksmem : ∀ k ∈ (m.map Prod.fst).insertionSort (· ≤ ·), k ∈ m.map Prod.fst := by
    intro k hk
    rwa [List.mem_insertionSort] at hk
  rw [main _ hks hksmem]
  by_cases hdm : d ∈ (m.map Prod.fst).insertionSort (· ≤ ·)
  · rw [if_pos hdm]
  · rw [if_neg hdm]
    rw [dictFind_eq_none_of_not_mem (by rw [List.mem_insertionSort] at hdm; exact hdm)]
    rfl
/-- Destructuring a successful run: the NEW table is non-empty, the date
column was found, the recent-window scan succeeded, and the output is the new
header followed by the stably sorted merged body. -/
theorem run_ok_elim {dc : String} {kd today : Int} {nr : List Row}
    {oldFile : Option (List Row)} {w : List String} {out : List Row}
    (h : run dc kd today (some nr) oldFile = RunResult.ok w out) :
    ∃ header new_body di m,
      nr = header :: new_body ∧
      indexOfCol dc header = some di ∧
      buildNewRecent header di (today - kd) new_body [] = Except.ok m ∧
      out = header ::
        (mergedBody header di (today - kd) ((effectiveOldRows header oldFile).drop 1)
            m).insertionSort (dateLe di) := by
  cases nr with
  | nil => simp [run] at h
  | cons header new_body =>
    simp only [run] at h
    cases hidx : indexOfCol dc header with
    | none => rw [hidx] at h; simp only [] at h; exact absurd h (by simp)
    | some di =>
      rw [hidx] at h
      simp only [] at h
      cases hb : buildNewRecent header di (today - kd) new_body [] with
      | error e => rw [hb] at h; simp only [] at h; exact absurd h (by simp)
      | ok m =>
        rw [hb] at h
        simp only [RunResult.ok.injEq] at h
        exact ⟨header, new_body, di, m, rfl, hidx, hb, h.2.symm⟩
/-- Shape of a run once the NEW table is non-empty and the date column was
found: the outcome is decided by the recent-window scan. -/
theorem run_eq_cases (dc : String) (kd today : Int) (header : Row)
    (new_body : List Row) (oldFile : Option (List Row)) (di : Nat)
    (hidx : indexOfCol dc header = some di) :
    run dc kd today (some (header :: new_body)) oldFile =
      match buildNewRecent header di (today - kd) new_body [] with
      | Except.error _ => RunResult.crash (runWarnings header oldFile)
      | Except.ok m =>
        RunResult.ok (runWarnings header oldFile)
          (header ::
            (mergedBody header di (today - kd) ((effectiveOldRows header oldFile).drop 1)
                m).insertionSort (dateLe di)) := by
  simp only [run]
  rw [hidx]
theorem run_crash_of_buildError (dc : String) (kd today : Int) (header : Row)
    (new_body : List Row) (oldFile : Option (List Row)) (di : Nat)
    (hidx : indexOfCol dc header = some di)
    (hb : buildNewRecent header di (today - kd) new_body [] = Except.error ()) :
    run dc kd today (some (header :: new_body)) oldFile =
      RunResult.crash (runWarnings header oldFile) := by
  rw [run_eq_cases dc kd today header new_body oldFile di hidx, hb]
/-- C2: with old rows 2024-01-01..05 valued 1..5, new rows 2024-01-04..06
valued 40,50,60, keep-days 2 and today 2024-01-06 (cutoff 2024-01-04), the
output body is exactly 01-01(1), 01-02(2), 01-03(3), 01-04(40), 01-05(50),
01-06(60) in that order. -/
theorem C2_concrete_scenario :
    run "Date" 2 (civilOrdinal 2024 1 6)
        (some [["Date", "Value"], ["2024-01-04", "40"], ["2024-01-05", "50"],
          ["2024-01-06", "60"]])
        (some [["Date", "Value"], ["2024-01-01", "1"], ["2024-01-02", "2"],
          ["2024-01-03", "3"], ["2024-01-04", "4"], ["2024-01-05", "5"]]) =
      RunResult.ok []
        [["Date", "Value"], ["2024-01-01", "1"], ["2024-01-02", "2"], ["2024-01-03", "3"],
         ["2024-01-04", "40"], ["2024-01-05", "50"], ["2024-01-06", "60"]] := by
  decide
/-- C7 (amended): an unreadable NEW file makes the run abort with an uncaught
exception: nothing is written to the output, a traceback goes to the error
stream, and the process exit status is 1 (not the fatal-input-error code 2,
which is reserved for the two diagnosed cases). -/
theorem C7_amended_unreadable_new_crashes (dc : String) (kd today : Int)
    (oldFile : Option (List Row)) :
    run dc kd today none oldFile = RunResult.crash [] ∧
      exitCode (run dc kd today none oldFile) = 1 :=
  ⟨rfl, rfl⟩
/-- C7 counterexample: with the NEW file unreadable the process exit status
is 1, not the exit code 2 the claim requires. -/
theorem C7_counterexample :
    run "Date" 30 (civilOrdinal 2025 10 12) none none = RunResult.crash [] ∧
      exitCode (run "Date" 30 (civilOrdinal 2025 10 12) none none) ≠ 2 := by
  decide
/-- C10: the date-column index returned by the header lookup is strictly less
than the header length, so indexing the date field of any row that passed the
field-count check is in bounds (the defaulted access agrees with the checked
one, and no indexing error can arise there). -/
theorem C10_date_index_in_bounds (dc : String) (header row : Row) (di : Nat)
    (hidx : indexOfCol dc header = some di) (hlen : row.length = header.length) :
    di < header.length ∧ row[di]? = some (row.getD di "") := by
  have hdi := indexOfCol_lt_length hidx
  have hdi2 : di < row.length := by rw [hlen]; exact hdi
  refine ⟨hdi, ?_⟩
  rw [List.getD_eq_getElem?_getD, List.getElem?_eq_getElem hdi2]
  rfl
/-- C10 witness at a concrete header and row. -/
theorem C10_witness :
    0 < (["Date", "Value"] : List String).length ∧
      (["2024-01-01", "1"] : List String)[0]? =
        some ((["2024-01-01", "1"] : List String).getD 0 "") :=
  C10_date_index_in_bounds "Date" ["Date", "Value"] ["2024-01-01", "1"] 0
    (by decide) (by decide)
/-- C6: a NEW table with no rows at all is fatal (diagnosed, exit status 2,
no output written); a NEW header without the configured date column is fatal
the same way; but a NEW table consisting of the header row alone is not
fatal: the run completes normally. -/
theorem C6_empty_or_missing_column_fatal (dc : String) (kd today : Int)
    (oldFile : Option (List Row)) (header : Row) (di : Nat) :
    (run dc kd today (some []) oldFile = RunResult.fatal "ERROR: new CSV is empty" ∧
      exitCode (run dc kd today (some []) oldFile) = 2) ∧
    (∀ new_body : List Row, indexOfCol dc header = none →
      run dc kd today (some (header :: new_body)) oldFile =
          RunResult.fatal ("ERROR: date column " ++ dc ++ " not found in NEW header") ∧
        exitCode (run dc kd today (some (header :: new_body)) oldFile) = 2) ∧
    (indexOfCol dc header = some di →
      ∃ w out, run dc kd today (some [header]) oldFile = RunResult.ok w out) := by
  refine ⟨⟨rfl, rfl⟩, ?_, ?_⟩
  · intro nb hnone
    have h1 : run dc kd today (some (header :: nb)) oldFile =
        RunResult.fatal ("ERROR: date column " ++ dc ++ " not found in NEW header") := by
      simp only [run]
      rw [hnone]
    exact ⟨h1, by rw [h1]; rfl⟩
  · intro hsome
    rw [run_eq_cases dc kd today header [] oldFile di hsome]
    exact ⟨_, _, rfl⟩
/-- C6 witness: both fatal branches and the header-only success at concrete
inputs. -/
theorem C6_witness :
    run "Date" 30 (civilOrdinal 2024 1 6) (some []) none =
        RunResult.fatal "ERROR: new CSV is empty" ∧
      (run "Date" 30 (civilOrdinal 2024 1 6) (some [["Other", "Value"]]) none =
          RunResult.fatal ("ERROR: date column " ++ "Date" ++ " not found in NEW header") ∧
        exitCode (run "Date" 30 (civilOrdinal 2024 1 6) (some [["Other", "Value"]]) none) = 2) ∧
      ∃ w out, run "Date" 30 (civilOrdinal 2024 1 6) (some [["Date", "Value"]]) none =
          RunResult.ok w out := by
  refine ⟨?_, ?_, ?_⟩
  · exact (C6_empty_or_missing_column_fatal "Date" 30 (civilOrdinal 2024 1 6) none
      ["Date", "Value"] 0).1.1
  · exact (C6_empty_or_missing_column_fatal "Date" 30 (civilOrdinal 2024 1 6) none
      ["Other", "Value"] 0).2.1 [] (by decide)
  · exact (C6_empty_or_missing_column_fatal "Date" 30 (civilOrdinal 2024 1 6) none
      ["Date", "Value"] 0).2.2 (by decide)
theorem buildNewRecent_cons_err {header row : Row} {di : Nat} {cutoff : Int}
    {rest : List Row} {acc : List (Int × Row)}
    (hlen : row.length = header.length)
    (hp : parse_date (row.getD di "") = Except.error ()) :
    buildNewRecent header di cutoff (row :: rest) acc = Except.error () := by
  rw [buildNewRecent, if_neg (by omega), hp]
theorem buildNewRecent_cons_none {header row : Row} {di : Nat} {cutoff : Int}
    {rest : List Row} {acc : List (Int × Row)}
    (hlen : row.length = header.length)
    (hp : parse_date (row.getD di "") = Except.ok none) :
    buildNewRecent header di cutoff (row :: rest) acc =
      buildNewRecent header di cutoff rest acc := by
  rw [buildNewRecent, if_neg (by omega), hp]
theorem buildNewRecent_cons_ge {header row : Row} {di : Nat} {cutoff d : Int}
    {rest : List Row} {acc : List (Int × Row)}
    (hlen : row.length = header.length)
    (hp : parse_date (row.getD di "") = Except.ok (some d)) (hcut : cutoff ≤ d) :
    buildNewRecent header di cutoff (row :: rest) acc =
      buildNewRecent header di cutoff rest (dictInsert acc d row) := by
  rw [buildNewRecent, if_neg (by omega), hp]
  exact if_pos hcut
theorem buildNewRecent_cons_lt {header row : Row} {di : Nat} {cutoff d : Int}
    {rest : List Row} {acc : List (Int × Row)}
    (hlen : row.length = header.length)
    (hp : parse_date (row.getD di "") = Except.ok (some d)) (hcut : ¬cutoff ≤ d) :
    buildNewRecent header di cutoff (row :: rest) acc =
      buildNewRecent header di cutoff rest acc := by
  rw [buildNewRecent, if_neg (by omega), hp]
  exact if_neg hcut
theorem buildNewRecent_cons_badlen {header row : Row} {di : Nat} {cutoff : Int}
    {rest : List Row} {acc : List (Int × Row)}
    (hlen : ¬row.length = header.length) :
    buildNewRecent header di cutoff (row :: rest) acc =
      buildNewRecent header di cutoff rest acc := by
  rw [buildNewRecent, if_pos (by omega)]
/-- A full-length NEW row whose date raises aborts the whole scan. -/
theorem buildNewRecent_error_of_mem (header : Row) (di : Nat) (cutoff : Int) :
    ∀ (rows : List Row) (acc : List (Int × Row)) (row : Row),
      row ∈ rows → row.length = header.length → parseRaises di row = true →
      buildNewRecent header di cutoff rows acc = Except.error () := by
  intro rows
  induction rows with
  | nil => intro acc row h; simp at h
  | cons r0 rest ih =>
    intro acc row hmem hlen herr
    have hp : parse_date (row.getD di "") = Except.error () := by
      simpa [parseRaises] using herr
    rcases List.mem_cons.mp hmem with rfl | hin
    · exact buildNewRecent_cons_err hlen hp
    · by_cases hlen0 : r0.length = header.length
      · cases hp0 : parse_date (r0.getD di "") with
        | error e => cases e; exact buildNewRecent_cons_err hlen0 hp0
        | ok o =>
          cases o with
          | none =>
            rw [buildNewRecent_cons_none hlen0 hp0]
            exact ih acc row hin hlen herr
          | some d0 =>
            by_cases hcut : cutoff ≤ d0
            · rw [buildNewRecent_cons_ge hlen0 hp0 hcut]
              exact ih _ row hin hlen herr
            · rw [buildNewRecent_cons_lt hlen0 hp0 hcut]
              exact ih acc row hin hlen herr
      · rw [buildNewRecent_cons_badlen hlen0]
        exact ih acc row hin hlen herr
/-- Dropping the OLD rows whose date raises does not change which OLD rows
are kept. -/
theorem oldKept_filter_raises (header : Row) (di : Nat) (cutoff : Int) (rows : List Row) :
    oldKept header di cutoff (rows.filter (fun r => !(parseRaises di r))) =
      oldKept header di cutoff rows := by
  unfold oldKept
  rw [List.filter_filter]
  refine List.filter_congr ?_
  intro a _
  cases husable : usableOld header di cutoff a with
  | false => simp [husable]
  | true =>
    obtain ⟨-, d, hpd, -⟩ := usableOld_spec husable
    simp only [parseRaises]
    rw [hpd]
    simp
/-- Removing the raising rows from the OLD body leaves the entire run outcome
unchanged: those rows were ignored silently. -/
theorem run_old_raises_ignored (dc : String) (kd today : Int) (header : Row)
    (new_body : List Row) (oh : Row) (ob : List Row) (di : Nat)
    (hidx : indexOfCol dc header = some di) :
    run dc kd today (some (header :: new_body))
        (some (oh :: ob.filter (fun r => !(parseRaises di r)))) =
      run dc kd today (some (header :: new_body)) (some (oh :: ob)) := by
  rw [run_eq_cases dc kd today header new_body _ di hidx,
    run_eq_cases dc kd today header new_body _ di hidx]
  cases hb : buildNewRecent header di (today - kd) new_body [] with
  | error e => rfl
  | ok m =>
    have hmb : mergedBody header di (today - kd) (ob.filter (fun r => !(parseRaises di r))) m =
        mergedBody header di (today - kd) ob m := by
      unfold mergedBody
      rw [oldKept_filter_raises]
    simp only [effectiveOldRows, List.drop_succ_cons, List.drop_zero]
    rw [hmb]
    rfl
/-- C1 (amended): parse failures are handled asymmetrically.  OLD-table rows
whose date raises are discarded silently — removing all of them from the OLD
body leaves the entire run outcome unchanged.  In the NEW table only a date
that is empty after stripping is skipped; a full-length NEW row whose
non-empty date fails ISO parsing makes the recent-window scan raise, and the
run then aborts as an uncaught exception (exit status 1, no output) instead
of continuing to a successful run. -/
theorem C1_amended_parse_failures :
    (∀ (dc : String) (kd today : Int) (header : Row) (new_body : List Row)
        (oh : Row) (ob : List Row) (di : Nat),
        indexOfCol dc header = some di →
        run dc kd today (some (header :: new_body))
            (some (oh :: ob.filter (fun r => !(parseRaises di r)))) =
          run dc kd today (some (header :: new_body)) (some (oh :: ob))) ∧
    (∀ (header : Row) (di : Nat) (cutoff : Int) (rows : List Row)
        (acc : List (Int × Row)) (row : Row),
        row ∈ rows → row.length = header.length → parseRaises di row = true →
        buildNewRecent header di cutoff rows acc = Except.error ()) ∧
    (∀ (dc : String) (kd today : Int) (header : Row) (new_body : List Row)
        (oldFile : Option (List Row)) (di : Nat),
        indexOfCol dc header = some di →
        buildNewRecent header di (today - kd) new_body [] = Except.error () →
        run dc kd today (some (header :: new_body)) oldFile =
            RunResult.crash (runWarnings header oldFile) ∧
          exitCode (run dc kd today (some (header :: new_body)) oldFile) = 1) := by
  refine ⟨?_, ?_, ?_⟩
  · intro dc kd today header new_body oh ob di hidx
    exact run_old_raises_ignored dc kd today header new_body oh ob di hidx
  · intro header di cutoff rows acc row hmem hlen herr
    exact buildNewRecent_error_of_mem header di cutoff rows acc row hmem hlen herr
  · intro dc kd today header new_body oldFile di hidx hb
    have h1 := run_crash_of_buildError dc kd today header new_body oldFile di hidx hb
    exact ⟨h1, by rw [h1]; rfl⟩
/-- C1 counterexample: a NEW row whose date field is non-empty but unparsable
makes the run abort with an uncaught exception (nonzero exit, no output),
instead of being discarded silently with a normal successful run. -/
theorem C1_counterexample :
    run "Date" 2 (civilOrdinal 2024 1 6)
        (some [["Date", "Value"], ["garbage", "1"], ["2024-01-06", "60"]]) none =
      RunResult.crash [] ∧
    exitCode (run "Date" 2 (civilOrdinal 2024 1 6)
        (some [["Date", "Value"], ["garbage", "1"], ["2024-01-06", "60"]]) none) ≠ 0 := by
  decide
/-- C1 witness: the three amended conclusions at concrete inputs. -/
theorem C1_witness :
    (run "Date" 2 (civilOrdinal 2024 1 6) (some [["Date", "Value"]])
        (some (["Date", "Value"] ::
          ([["oops", "9"], ["2024-01-01", "1"]].filter (fun r => !(parseRaises 0 r))))) =
      run "Date" 2 (civilOrdinal 2024 1 6) (some [["Date", "Value"]])
        (some [["Date", "Value"], ["oops", "9"], ["2024-01-01", "1"]])) ∧
    buildNewRecent ["Date", "Value"] 0 (civilOrdinal 2024 1 4)
        [["garbage", "1"], ["2024-01-06", "60"]] [] = Except.error () ∧
    run "Date" 2 (civilOrdinal 2024 1 6)
        (some [["Date", "Value"], ["garbage", "1"]]) none =
      RunResult.crash (runWarnings ["Date", "Value"] none) := by
  refine ⟨?_, ?_, ?_⟩
  · exact C1_amended_parse_failures.1 "Date" 2 (civilOrdinal 2024 1 6) ["Date", "Value"] []
      ["Date", "Value"] [["oops", "9"], ["2024-01-01", "1"]] 0 (by decide)
  · exact C1_amended_parse_failures.2.1 ["Date", "Value"] 0 (civilOrdinal 2024 1 4)
      [["garbage", "1"], ["2024-01-06", "60"]] [] ["garbage", "1"]
      (by decide) (by decide) (by decide)
  · exact (C1_amended_parse_failures.2.2 "Date" 2 (civilOrdinal 2024 1 6) ["Date", "Value"]
      [["garbage", "1"]] none 0 (by decide) (by decide)).1
/-- C9: every data row of a successful run's output has exactly as many
fields as the output's header row. -/
theorem C9_field_count_invariant (dc : String) (kd today : Int) (nr : List Row)
    (oldFile : Option (List Row)) (w : List String) (out : List Row)
    (h : run dc kd today (some nr) oldFile = RunResult.ok w out) :
    ∀ row ∈ out.drop 1, row.length = (out.headD []).length := by
  obtain ⟨header, new_body, di, m, rfl, hidx, hb, hout⟩ := run_ok_elim h
  subst hout
  simp only [List.drop_succ_cons, List.drop_zero, List.headD_cons]
  intro row hrow
  rw [List.mem_insertionSort] at hrow
  unfold mergedBody at hrow
  rcases List.mem_append.mp hrow with hold | hnew
  · exact (usableOld_spec (List.of_mem_filter hold)).1
  · obtain ⟨k, hk⟩ := mem_recentRows_elim hnew
    exact (buildNewRecent_prop header di (today - kd) new_body [] m hb (by simp) _ hk).1
/-- C9 witness: a concrete data row of the demo output has the header's
field count. -/
theorem C9_witness :
    (["2024-01-04", "40"] : Row).length = (outDemo.headD []).length :=
  C9_field_count_invariant "Date" 2 (civilOrdinal 2024 1 6) newDemo (some oldDemo)
    [] outDemo (by decide) ["2024-01-04", "40"] (by decide)

/-- C8 (amended): when the OLD table is loaded and its header row differs
from the NEW header, the warning is always emitted on the error stream; and
provided the NEW-table recent-window scan does not abort (the C1 exception),
the run continues to completion and the header row written to the output is
the NEW table's header. -/
theorem C8_amended_header_mismatch_warning (dc : String) (kd today : Int)
    (header : Row) (new_body : List Row) (oh : Row) (ob : List Row) (di : Nat)
    (hidx : indexOfCol dc header = some di) (hne : oh ≠ header) :
    emittedWarnings (run dc kd today (some (header :: new_body)) (some (oh :: ob))) =
      [headerWarning] ∧
    (∀ m, buildNewRecent header di (today - kd) new_body [] = Except.ok m →
      ∃ out, run dc kd today (some (header :: new_body)) (some (oh :: ob)) =
          RunResult.ok [headerWarning] out ∧ out.headD [] = header) := by
  have hw : runWarnings header (some (oh :: ob)) = [headerWarning] := by
    show (if oh = header then [] else [headerWarning]) = [headerWarning]
    exact if_neg hne
  rw [run_eq_cases dc kd today header new_body _ di hidx]
  cases hb : buildNewRecent header di (today - kd) new_body [] with
  | error e =>
    refine ⟨?_, ?_⟩
    · show runWarnings header (some (oh :: ob)) = [headerWarning]
      exact hw
    · intro m hm
      exact absurd hm (by simp)
  | ok m2 =>
    refine ⟨?_, ?_⟩
    · show runWarnings header (some (oh :: ob)) = [headerWarning]
      exact hw
    · intro m hm
      refine ⟨header :: (mergedBody header di (today - kd)
          ((effectiveOldRows header (some (oh :: ob))).drop 1) m2).insertionSort (dateLe di),
        ?_, rfl⟩
      show RunResult.ok (runWarnings header (some (oh :: ob)))
          (header :: (mergedBody header di (today - kd)
            ((effectiveOldRows header (some (oh :: ob))).drop 1) m2).insertionSort (dateLe di)) =
        RunResult.ok [headerWarning]
          (header :: (mergedBody header di (today - kd)
            ((effectiveOldRows header (some (oh :: ob))).drop 1) m2).insertionSort (dateLe di))
      rw [hw]

/-- C8 counterexample: with mismatching headers and a NEW row whose date
raises, the warning is emitted but the run does not continue to completion —
it aborts with an uncaught exception and writes no output. -/
theorem C8_counterexample :
    run "Date" 2 (civilOrdinal 2024 1 6)
        (some [["Date", "Value"], ["garbage", "1"]]) (some [["Other"], ["x", "y"]]) =
      RunResult.crash [headerWarning] ∧
    exitCode (run "Date" 2 (civilOrdinal 2024 1 6)
        (some [["Date", "Value"], ["garbage", "1"]]) (some [["Other"], ["x", "y"]])) ≠ 0 := by
  decide

/-- C8 witness: warning plus successful completion with the NEW header at a
concrete pair of tables. -/
theorem C8_witness :
    emittedWarnings (run "Date" 2 (civilOrdinal 2024 1 6)
        (some [["Date", "Value"], ["2024-01-06", "60"]])
        (some [["Other"], ["2024-01-01", "1"]])) = [headerWarning] ∧
    ∃ out, run "Date" 2 (civilOrdinal 2024 1 6)
        (some [["Date", "Value"], ["2024-01-06", "60"]])
        (some [["Other"], ["2024-01-01", "1"]]) =
        RunResult.ok [headerWarning] out ∧ out.headD [] = ["Date", "Value"] := by
  have h := C8_amended_header_mismatch_warning "Date" 2 (civilOrdinal 2024 1 6)
    ["Date", "Value"] [["2024-01-06", "60"]] ["Other"] [["2024-01-01", "1"]] 0
    (by decide) (by decide)
  exact ⟨h.1, h.2 [(civilOrdinal 2024 1 6, ["2024-01-06", "60"])] (by decide)⟩

/-- C3: in a successful run, every output row whose date is at or after the
cutoff is exactly the last-wins NEW-table row recorded for that date (so it
originates from the NEW input, never the OLD one), every recorded NEW row
does appear in the output, and every usable OLD row dated before the cutoff
appears field-for-field unchanged in the output. -/
theorem C3_recent_from_new_history_preserved (dc : String) (kd today : Int)
    (header : Row) (new_body : List Row) (oldFile : Option (List Row))
    (w : List String) (out : List Row) (di : Nat) (m : List (Int × Row))
    (hidx : indexOfCol dc header = some di)
    (hb : buildNewRecent header di (today - kd) new_body [] = Except.ok m)
    (h : run dc kd today (some (header :: new_body)) oldFile = RunResult.ok w out) :
    (∀ (row : Row) (d : Int), row ∈ out.drop 1 →
      parse_date (row.getD di "") = Except.ok (some d) → today - kd ≤ d →
      dictFind m d = some row ∧ row ∈ new_body) ∧
    (∀ (d : Int) (r : Row), dictFind m d = some r → r ∈ out.drop 1) ∧
    (∀ (row : Row) (d : Int), row ∈ (effectiveOldRows header oldFile).drop 1 →
      row.length = header.length → parse_date (row.getD di "") = Except.ok (some d) →
      d < today - kd → row ∈ out.drop 1) := by
  rw [run_eq_cases dc kd today header new_body oldFile di hidx, hb] at h
  simp only [RunResult.ok.injEq] at h
  obtain ⟨hw, hout⟩ := h
  subst hout
  simp only [List.drop_succ_cons, List.drop_zero]
  have hnd : (m.map Prod.fst).Nodup :=
    buildNewRecent_nodup header di (today - kd) new_body [] m hb (by simp)
  have hprop : ∀ p ∈ m, EntryProp header di (today - kd) p :=
    buildNewRecent_prop header di (today - kd) new_body [] m hb (by simp)
  refine ⟨?_, ?_, ?_⟩
  · intro row d hrow hp hd
    rw [List.mem_insertionSort] at hrow
    unfold mergedBody at hrow
    rcases List.mem_append.mp hrow with hold | hnew
    · obtain ⟨-, d0, hp0, hlt⟩ := usableOld_spec (List.of_mem_filter hold)
      rw [hp0] at hp
      have : d0 = d := by simpa using hp
      omega
    · obtain ⟨k, hk⟩ := mem_recentRows_elim hnew
      have hkd : k = d := by
        have := (hprop _ hk).2.1
        rw [this] at hp
        simpa using hp
      subst hkd
      refine ⟨dictFind_eq_some_of_mem hnd hk, ?_⟩
      rcases buildNewRecent_mem header di (today - kd) new_body [] m hb _ hk with hacc | hbody
      · simp at hacc
      · exact hbody
  · intro d r hfind
    have hk : (d, r) ∈ m := mem_of_dictFind_eq_some hfind
    have : r ∈ recentRows m := mem_recentRows_intro hnd hk
    rw [List.mem_insertionSort]
    unfold mergedBody
    exact List.mem_append.mpr (Or.inr this)
  · intro row d hrow hlen hp hd
    rw [List.mem_insertionSort]
    unfold mergedBody
    refine List.mem_append.mpr (Or.inl ?_)
    unfold oldKept
    exact List.mem_filter.mpr ⟨hrow, usableOld_intro hlen hp hd⟩

/-- C3 witness: instances of all three conclusions at the demo scenario. -/
theorem C3_witness :
    (dictFind dictDemo (civilOrdinal 2024 1 4) = some ["2024-01-04", "40"] ∧
      ["2024-01-04", "40"] ∈ outDemo.drop 1) ∧
    ["2024-01-01", "1"] ∈ outDemo.drop 1 := by
  have h := C3_recent_from_new_history_preserved "Date" 2 (civilOrdinal 2024 1 6)
    ["Date", "Value"] (newDemo.drop 1) (some oldDemo) [] outDemo 0 dictDemo
    (by decide) (by decide) (by decide)
  refine ⟨⟨?_, ?_⟩, ?_⟩
  · exact (h.1 ["2024-01-04", "40"] (civilOrdinal 2024 1 4) (by decide) (by decide)
      (by decide)).1
  · exact h.2.1 (civilOrdinal 2024 1 4) ["2024-01-04", "40"] (by decide)
  · exact h.2.2 ["2024-01-01", "1"] (civilOrdinal 2024 1 1) (by decide) (by decide)
      (by decide) (by decide)

/-- C4: the data rows of a successful run's output are sorted by parsed date
in non-decreasing order, and the sort is stable: for every date, the rows
carrying that date appear in exactly the order they had in the merged body
(history rows first, then recent-window rows) before sorting. -/
theorem C4_sorted_stable (dc : String) (kd today : Int) (header : Row)
    (new_body : List Row) (oldFile : Option (List Row)) (w : List String)
    (out : List Row) (di : Nat) (m : List (Int × Row))
    (hidx : indexOfCol dc header = some di)
    (hb : buildNewRecent header di (today - kd) new_body [] = Except.ok m)
    (h : run dc kd today (some (header :: new_body)) oldFile = RunResult.ok w out) :
    List.Pairwise (dateLe di) (out.drop 1) ∧
    ∀ d : Int, (out.drop 1).filter (atDate di d) =
      (mergedBody header di (today - kd) ((effectiveOldRows header oldFile).drop 1) m).filter
        (atDate di d) := by
  rw [run_eq_cases dc kd today header new_body oldFile di hidx, hb] at h
  simp only [RunResult.ok.injEq] at h
  obtain ⟨hw, hout⟩ := h
  subst hout
  simp only [List.drop_succ_cons, List.drop_zero]
  constructor
  · exact List.sorted_insertionSort (dateLe di) _
  · intro d
    exact filter_insertionSort_atDate di d _

/-- C4 witness: sortedness and stability at the demo scenario with date
2024-01-04. -/
theorem C4_witness :
    List.Pairwise (dateLe 0) (outDemo.drop 1) ∧
    (outDemo.drop 1).filter (atDate 0 (civilOrdinal 2024 1 4)) =
      (mergedBody ["Date", "Value"] 0 (civilOrdinal 2024 1 6 - 2)
        ((effectiveOldRows ["Date", "Value"] (some oldDemo)).drop 1) dictDemo).filter
        (atDate 0 (civilOrdinal 2024 1 4)) := by
  have h := C4_sorted_stable "Date" 2 (civilOrdinal 2024 1 6)
    ["Date", "Value"] (newDemo.drop 1) (some oldDemo) [] outDemo 0 dictDemo
    (by decide) (by decide) (by decide)
  exact ⟨h.1, h.2 (civilOrdinal 2024 1 4)⟩

/-- C5: for every date at or after the cutoff, the output carries at most one
row with that date, and when usable NEW rows with that date exist the one
kept is the one appearing last in the NEW table's row order (last-wins, not
an error). -/
theorem C5_dedup_last_wins (dc : String) (kd today : Int) (header : Row)
    (new_body : List Row) (oldFile : Option (List Row)) (w : List String)
    (out : List Row) (di : Nat) (m : List (Int × Row))
    (hidx : indexOfCol dc header = some di)
    (hb : buildNewRecent header di (today - kd) new_body [] = Except.ok m)
    (h : run dc kd today (some (header :: new_body)) oldFile = RunResult.ok w out) :
    ∀ d : Int, today - kd ≤ d →
      (out.drop 1).filter (atDate di d) =
        ((new_body.filter (usableRecent header di (today - kd) d)).getLast?).toList ∧
      ((out.drop 1).filter (atDate di d)).length ≤ 1 := by
  rw [run_eq_cases dc kd today header new_body oldFile di hidx, hb] at h
  simp only [RunResult.ok.injEq] at h
  obtain ⟨hw, hout⟩ := h
  subst hout
  simp only [List.drop_succ_cons, List.drop_zero]
  have hnd : (m.map Prod.fst).Nodup :=
    buildNewRecent_nodup header di (today - kd) new_body [] m hb (by simp)
  have hprop : ∀ p ∈ m, EntryProp header di (today - kd) p :=
    buildNewRecent_prop header di (today - kd) new_body [] m hb (by simp)
  intro d hd
  have hfilter :
      ((mergedBody header di (today - kd) ((effectiveOldRows header oldFile).drop 1)
          m).insertionSort (dateLe di)).filter (atDate di d) = (dictFind m d).toList := by
    rw [filter_insertionSort_atDate]
    unfold mergedBody
    rw [List.filter_append, oldKept_filter_atDate_ge hd, recentRows_filter_atDate hnd hprop]
    rfl
  have hlast : dictFind m d =
      (new_body.filter (usableRecent header di (today - kd) d)).getLast? := by
    rw [buildNewRecent_find header di (today - kd) new_body [] m hb d]
    show Option.or _ none = _
    rw [Option.or_none]
  constructor
  · rw [hfilter, hlast]
  · rw [hfilter]
    cases dictFind m d <;> simp

/-- C5 witness: deduplication and last-wins at a NEW table carrying two rows
for 2024-01-06 (the later one, valued 61, wins). -/
theorem C5_witness :
    (([["Date", "Value"], ["2024-01-06", "61"]] : List Row).drop 1).filter
        (atDate 0 (civilOrdinal 2024 1 6)) =
      ((([["2024-01-06", "60"], ["2024-01-06", "61"]] : List Row).filter
          (usableRecent ["Date", "Value"] 0 (civilOrdinal 2024 1 6 - 2)
            (civilOrdinal 2024 1 6))).getLast?).toList ∧
    ((([["Date", "Value"], ["2024-01-06", "61"]] : List Row).drop 1).filter
        (atDate 0 (civilOrdinal 2024 1 6))).length ≤ 1 :=
  C5_dedup_last_wins "Date" 2 (civilOrdinal 2024 1 6) ["Date", "Value"]
    [["2024-01-06", "60"], ["2024-01-06", "61"]]
    none [] [["Date", "Value"], ["2024-01-06", "61"]] 0
    [(civilOrdinal 2024 1 6, ["2024-01-06", "61"])]
    (by decide) (by decide) (by decide) (civilOrdinal 2024 1 6) (by decide)
